import Mathlib

/-!
Shallow embedding of the SherpaJS structure compiler
(src/compiler/structure/index.ts and src/compiler/structure/config-module/index.ts).

External collaborators that are out of scope of the core (path utilities, file
lookup, dynamic module loading / tooling, the declarative-endpoint parser and
the route-file walker) are modelled as oracle functions collected in an `Env`
structure; the compiler's own control flow is translated statement by
statement from the source.  JavaScript objects used as ordered string-keyed
maps are modelled as association lists with JS object semantics (insertion
order preserved, assignment to an existing key replaces in place, spread
merges left to right).  The `async` recursion through delegated modules is
not structurally well-founded (a delegated module may point anywhere in the
file system), so delegation depth is bounded by a fuel parameter that
decreases exactly at the delegation boundary and nowhere else.
-/

/-- Diagnostic severity (utilities/logger/model). -/
inductive Level where
  | INFO
  | WARN
  | ERROR
deriving DecidableEq, Repr

/-- A diagnostic message `{ level?, text, content?, file: { filepath } }`.
`level` is optional because some messages in the source omit it;
`file` is optional because `getEndpoints` reads `dirTree.files[0]` even when
the directory has no route file (in JavaScript that access would throw). -/
structure Message where
  level : Option Level
  text : String
  content : Option String
  file : Option String
deriving DecidableEq, Repr

/-- A routing segment parsed from a directory name. -/
structure Segment where
  name : String
  isDynamic : Bool
deriving DecidableEq, Repr

/-- Contexts are opaque app-defined values threaded through the recursion;
a concrete serializable carrier suffices for the embedding. -/
abbrev Context := String

/-- Capability marker carried by a module instance (`instance.interface`);
the fixed root interface is `CreateModuleInterface`. -/
inductive InterfaceTag where
  | createModule
  | custom (id : String)
deriving DecidableEq, Repr

/-- The fixed root interface value from models. -/
def CreateModuleInterface : InterfaceTag := InterfaceTag.createModule

/-- A module configuration object (`instance` of a module level). -/
structure ModuleConfig where
  name : String
  interface : InterfaceTag
deriving DecidableEq, Repr

/-- One level of the module hierarchy. -/
structure ModuleConfigFile where
  entry : String
  filepath : String
  context : Context
  contextFilepath : String
  inst : ModuleConfig
deriving DecidableEq, Repr

/-- The root server configuration; the compiler reads `server.instance.context`
and `server.filepath`. -/
structure ServerConfigFile where
  filepath : String
  instContext : Context
deriving DecidableEq, Repr

/-- A terminal endpoint leaf.  The flattener recognises a leaf by the
truthiness of its `filepath` field. -/
structure Endpoint where
  filepath : String
  viewFilepath : Option String
  segments : List Segment
deriving DecidableEq, Repr

/-- An `EndpointTree` value: a JS object mapping routing tokens to either a
nested tree or a terminal endpoint, modelled as an ordered association list. -/
inductive ETree where
  | leaf (e : Endpoint)
  | node (entries : List (String × ETree))

/-- Ordered key-value entries of an endpoint-tree object. -/
abbrev EntryList := List (String × ETree)

/-- The directory-structure tree consumed from the file-system walker:
`{ files: [{filepath: {absolute}}], directories: { name: subtree } }`.
Files are represented by their absolute paths. -/
inductive DirTree where
  | mk (files : List String) (directories : List (String × DirTree))

def DirTree.files : DirTree → List String
  | .mk f _ => f

def DirTree.directories : DirTree → List (String × DirTree)
  | .mk _ d => d

/-- Result shape `{ logs, endpoints? }` shared by the compiler's functions. -/
structure EPResult where
  logs : List Message
  endpoints : Option EntryList

/-- JS object read `obj[key]`: first entry with the key, if any. -/
def objGet : EntryList → String → Option ETree
  | [], _ => none
  | (k, v) :: rest, key => if k = key then some v else objGet rest key

/-- JS object write `obj[key] = val`: replace in place if present,
else append at the end. -/
def objSet : EntryList → String → ETree → EntryList
  | [], key, val => [(key, val)]
  | (k, v) :: rest, key, val =>
      if k = key then (k, val) :: rest else (k, v) :: objSet rest key val

/-- JS object spread `{...base, ...add}`. -/
def objMerge (base : EntryList) (add : EntryList) : EntryList :=
  add.foldl (fun acc kv => objSet acc kv.1 kv.2) base

/-- `getSegment` (structure/index.ts): bracket syntax marks a dynamic
segment; `id.slice(1, -1)` drops the enclosing brackets.  String operations
are expressed on the character list: `startsWith "["` is a head test,
`endsWith "]"` a last test, `slice(1,-1)` drops first and last characters. -/
def getSegment (id : String) : Segment :=
  let isDynamic := id.data.head? = some '[' ∧ id.data.getLast? = some ']'
  if isDynamic then ⟨⟨(id.data.drop 1).dropLast⟩, true⟩ else ⟨id, false⟩

example : getSegment "abc" = ⟨"abc", false⟩ := by decide
example : getSegment "[id]" = ⟨"id", true⟩ := by decide
example : getSegment "[" = ⟨"[", false⟩ := by decide

/-- The loader export found on a delegated route file
(`Tooling.getExportedLoader` result's `module`); the compiler reads its
relative `filepath`. -/
structure ExportedLoader where
  filepath : String
deriving DecidableEq, Repr

/-- The default export of a delegated route file (`ModuleInterface`);
the compiler reads its `context`. -/
structure ModuleLoader where
  context : Context
deriving DecidableEq, Repr

/-- Oracles for the external collaborators the structure compiler calls
(path utilities, file lookup, tooling, the declarative-endpoint parser, the
route-file walker and the server-config file lookup); all are absent from
the core and specified only at their interface boundary. -/
structure Env where
  getDirectory : String → String
  getName : String → String
  resolveExtensionFunctions : String → String → Option String
  resolveExtensionView : String → String → Option String
  pathResolve : String → String → String
  hasExportedLoader : String → Bool
  getExportedLoader : String → List Message × Option ExportedLoader
  getDefaultExportLoader : String → Except String ModuleLoader
  typeValidation : String → List Message
  getRouteFiles : String → List Message × Option DirTree
  getEndpointByDeclaration :
    ModuleConfigFile → Option String → Option String → List Segment → EPResult
  getFilepathVariableExtension : String → String → List String → Option String
  getDefaultExportModuleConfig : String → Option ModuleConfig
  getExportedVariableNames : String → List String
  getExtension : String → String
  serverConfigLookup : String → Option ServerConfigFile

/-- Reserved module-config base filename.  Modelled from the spec: models.ts
is not under src; the exact string is immaterial to every claim. -/
def FILENAME_CONFIG_MODULE : String := "sherpa.module"

/-- Closed ordered set of supported source-file extensions.  Modelled from
the spec: models.ts is not under src; the exact strings are immaterial. -/
def SUPPORTED_FILE_EXTENSIONS : List String := ["js", "ts"]

/-- Reserved context-schema export symbol name.  Modelled from the spec:
models.ts is not under src; the exact string is immaterial. -/
def CONTEXT_SCHEMA_TYPE_NAME : String := "SherpaContextSchema"

/-- Modelled from the spec: `Logger.hasError` (utilities/logger is not under
src) — whether any ERROR-level diagnostic is present in a sequence. -/
def hasErrorLog (msgs : List Message) : Bool :=
  msgs.any (fun m => m.level == some Level.ERROR)

/-- JavaScript string interpolation of an array of plain objects:
`segments.join(".")` stringifies each `Segment` object. -/
def jsJoinSegments (segments : List Segment) : String :=
  String.intercalate ("." : String) (segments.map (fun _ => "[object Object]"))

/-- The WARN pushed by `getEndpoints` when a child directory's key is
already present in the tree. -/
def overlapWarn (segments : List Segment) (routeFile : Option String) : Message :=
  { level := some Level.WARN
  , text := "Overlapping endpoint segment: \x22" ++ jsJoinSegments segments ++ "\x22."
  , content := none
  , file := routeFile }

/-- The WARN returned by `getEndpointFileByModule` when a view file
coexists with a delegated route file. -/
def viewWarnMsg (viewFilepath : String) : Message :=
  { level := some Level.WARN
  , text := "Views are not supported by Module Endpoints."
  , content := some "View will be ignored."
  , file := some viewFilepath }

/-- The ERROR returned by `getEndpointFileByModule` when the default export
of the functions file fails to load. -/
def loaderParseError (functionsFilepath : String) (e : String) : Message :=
  { level := some Level.ERROR
  , text := "Module Loader failed to parse."
  , content := some e
  , file := some functionsFilepath }

/-- The missing-module-config diagnostic of config-module `getFilepath`.
The source message carries text, content and file as below; its ERROR level
is modelled from the spec (the wired-in config-module revision is not under
src and the spec classifies MissingConfig as ERROR). -/
def moduleConfigMissingMsg (entry : String) : Message :=
  { level := some Level.ERROR
  , text := "Module config file could not be found."
  , content := some ("Must have module config, \x22" ++ FILENAME_CONFIG_MODULE
      ++ "\x22 of type \x22"
      ++ String.intercalate ("\x22, \x22" : String) SUPPORTED_FILE_EXTENSIONS ++ "\x22.")
  , file := some entry }

/-- The load-failure diagnostic of config-module `getInstance`; level
modelled from the spec as for `moduleConfigMissingMsg`. -/
def moduleConfigProcessMsg (filepath : String) : Message :=
  { level := some Level.ERROR
  , text := "Module config file could not be processed."
  , content := some "Ensure module config has default export."
  , file := some filepath }

/-- Modelled from the spec: the server-config MissingConfig diagnostic
(config-server is not under src); its absence aborts the whole compilation
with exactly one MissingConfig-class ERROR. -/
def serverConfigMissingMsg (entry : String) : Message :=
  { level := some Level.ERROR
  , text := "Server config file could not be found."
  , content := none
  , file := some entry }

/-- config-module `getFilepath`: locate the module-config file by fixed base
filename and the closed extension set; failing that, one missing-config
diagnostic and no filepath. -/
def getConfigFilepath (env : Env) (entry : String) : List Message × Option String :=
  match env.getFilepathVariableExtension entry FILENAME_CONFIG_MODULE
      SUPPORTED_FILE_EXTENSIONS with
  | some filepath => ([], some filepath)
  | none => ([moduleConfigMissingMsg entry], none)

/-- config-module `getInstance`: load the config file's default export; a
throw yields the process-failure diagnostic and no instance. -/
def getConfigInstance (env : Env) (filepath : String) :
    List Message × Option ModuleConfig :=
  match env.getDefaultExportModuleConfig filepath with
  | some inst => ([], some inst)
  | none => ([moduleConfigProcessMsg filepath], none)

/-- config-module `hasContextSchema`: the flag is the conjunction of the
export-name membership test and the statically-typed-dialect test. -/
def hasContextSchema (env : Env) (filepath : String) : Bool :=
  let exportedVariables := env.getExportedVariableNames filepath
  let exportedSchema := exportedVariables.contains CONTEXT_SCHEMA_TYPE_NAME
  let isTypescript := env.getExtension filepath == "TS"
  exportedSchema && isTypescript

/-- Modelled from the spec: `getModuleConfig(entry, context, contextFilepath)`
as called by structure/index.ts — the wired-in revision is not under src;
file lookup and default-export loading follow the src config-module
(`getFilepath`, `getInstance`) and the resolved `ModuleConfigFile` threads
the entry directory and the parent context per the Module Resolver
contract. -/
def getModuleConfig (env : Env) (entry : String) (context : Context)
    (contextFilepath : String) : List Message × Option ModuleConfigFile :=
  match getConfigFilepath env entry with
  | (errs, none) => (errs, none)
  | (_, some filepath) =>
    match getConfigInstance env filepath with
    | (errs, none) => (errs, none)
    | (_, some inst) =>
      ([], some { entry, filepath, context, contextFilepath, inst })

/-- structure/index.ts `getModule`: the root synthesizes its module identity
in memory (name `"."`, the fixed root interface, the context passed down
from the server configuration); non-root levels delegate to the module
resolver. -/
def getModule (env : Env) (entry : String) (context : Context)
    (contextFilepath : String) (isRoot : Bool) :
    List Message × Option ModuleConfigFile :=
  if isRoot then
    ([], some
      { entry := entry
      , filepath := entry
      , context := context
      , contextFilepath := contextFilepath
      , inst := { name := ".", interface := CreateModuleInterface } })
  else
    getModuleConfig env entry context contextFilepath

/-- The type of the delegation callback: `getComponents(entry, context,
contextFilepath, segments, false)` as invoked from
`getEndpointFileByModule`; the fuel-indexed compiler instantiates it. -/
abbrev Compile := String → Context → String → List Segment → EPResult

/-- structure/index.ts `getEndpointFileByModule`: a coexisting view file
yields one WARN and an immediate return with no endpoints (the delegated
branch is not compiled); otherwise the loader export and the default export
are loaded, the nested entry is resolved against the functions file's
directory, the nested compile and the type-validation pass run, and any
ERROR among the merged logs suppresses the branch's endpoints.  Note that a
default-export load failure returns only the parse-error message,
discarding the loader logs, exactly as the source's `catch` does. -/
def getEndpointFileByModuleG (env : Env) (compile : Compile)
    (functionsFilepath : String) (viewFilepath : Option String)
    (segments : List Segment) : EPResult :=
  match viewFilepath with
  | some v => ⟨[viewWarnMsg v], none⟩
  | none =>
    match env.getExportedLoader functionsFilepath with
    | (logsModule, none) => ⟨logsModule, none⟩
    | (logsModule, some loaderModule) =>
      match env.getDefaultExportLoader functionsFilepath with
      | .error e => ⟨[loaderParseError functionsFilepath e], none⟩
      | .ok moduleLoader =>
        let entry := env.pathResolve loaderModule.filepath
          (env.getDirectory functionsFilepath)
        let components := compile entry moduleLoader.context functionsFilepath segments
        let typeErrors := env.typeValidation functionsFilepath
        let logs := logsModule ++ components.logs ++ typeErrors
        if hasErrorLog logs then ⟨logs, none⟩
        else ⟨logs, components.endpoints⟩

/-- structure/index.ts `getEndpointFile`: resolve the companion functions
and view files of the route file; a functions file exposing a loader export
classifies the route as a delegated module (the JS condition also requires
the resolved path to be truthy, i.e. a non-empty string), anything else as
a declarative endpoint handled by the excluded declaration parser. -/
def getEndpointFileG (env : Env) (compile : Compile) (module : ModuleConfigFile)
    (filepath : String) (segments : List Segment) : EPResult :=
  let functionsFilepath :=
    env.resolveExtensionFunctions (env.getDirectory filepath) (env.getName filepath)
  let viewFilepath :=
    env.resolveExtensionView (env.getDirectory filepath) (env.getName filepath)
  match functionsFilepath with
  | some ffp =>
    if ffp ≠ "" ∧ env.hasExportedLoader ffp then
      getEndpointFileByModuleG env compile ffp viewFilepath segments
    else
      env.getEndpointByDeclaration module functionsFilepath viewFilepath segments
  | none =>
    env.getEndpointByDeclaration module none viewFilepath segments

/-- The route-file phase of `getEndpoints` (lines 104-110): at most the
first file of the directory is classified; its tree, when present, is
spread into the empty tree of this level. -/
def filePhase (env : Env) (compile : Compile) (module : ModuleConfigFile)
    (files : List String) (segments : List Segment) : List Message × EntryList :=
  match files with
  | [] => ([], [])
  | fp :: _ =>
    let r := getEndpointFileG env compile module fp segments
    match r.endpoints with
    | some es => (r.logs, objMerge [] es)
    | none => (r.logs, [])

mutual

/-- structure/index.ts `getEndpoints`: the route-file phase followed by the
child-directory loop; the returned endpoints object is always present
(possibly empty). -/
def getEndpointsG (env : Env) (compile : Compile) (module : ModuleConfigFile) :
    DirTree → List Segment → EPResult
  | DirTree.mk files dirs, segments =>
    let fp := filePhase env compile module files segments
    let step := processChildrenG env compile module files.head? segments dirs fp.2
    ⟨fp.1 ++ step.1, some step.2⟩

/-- The child-directory loop of `getEndpoints` (lines 112-131): for each
child in listing order, warn if its key `"/<name>"` is already claimed,
recurse with the extended segment chain, and store the child subtree at the
key when the recursion yields one. -/
def processChildrenG (env : Env) (compile : Compile) (module : ModuleConfigFile)
    (routeFile : Option String) (segments : List Segment) :
    List (String × DirTree) → EntryList → List Message × EntryList
  | [], endpoints => ([], endpoints)
  | (segmentName, child) :: rest, endpoints =>
    let warnLogs : List Message :=
      if (objGet endpoints ("/" ++ segmentName)).isSome then
        [overlapWarn segments routeFile]
      else []
    let r := getEndpointsG env compile module child (segments ++ [getSegment segmentName])
    let endpoints' : EntryList :=
      match r.endpoints with
      | some es => objSet endpoints ("/" ++ segmentName) (ETree.node es)
      | none => endpoints
    let next := processChildrenG env compile module routeFile segments rest endpoints'
    (warnLogs ++ r.logs ++ next.1, next.2)

end

/-- structure/index.ts `getComponents`: module resolution, route-file walk,
then `getEndpoints`; each failure propagates the accumulated logs with no
endpoints.  The fuel bounds delegation depth: the callback handed to the
endpoint classifier compiles nested modules with one unit less, and
exhausted fuel yields no endpoints (an artifact of the embedding; the
source's recursion is unbounded). -/
def getComponentsF (env : Env) : Nat → String → Context → String →
    List Segment → Bool → EPResult
  | fuel, entry, context, contextFilepath, segments, isRoot =>
    let compile : Compile :=
      match fuel with
      | 0 => fun _ _ _ _ => ⟨[], none⟩
      | f + 1 => fun e c cf sg => getComponentsF env f e c cf sg false
    match getModule env entry context contextFilepath isRoot with
    | (logsModule, none) => ⟨logsModule, none⟩
    | (logsModule, some module) =>
      match env.getRouteFiles module.entry with
      | (logsFiles, none) => ⟨logsModule ++ logsFiles, none⟩
      | (logsFiles, some tree) =>
        let s := getEndpointsG env compile module tree segments
        ⟨logsModule ++ logsFiles ++ s.logs, s.endpoints⟩

/-- `sizeOf` monotonicity of `List.filter`, needed for the termination of the
flattener (the source maps over the filtered non-`"."` keys). -/
theorem sizeOf_filter_le (p : String × ETree → Bool) :
    ∀ l : List (String × ETree), sizeOf (l.filter p) ≤ sizeOf l := by
  intro l
  induction l with
  | nil => simp
  | cons h t ih =>
    by_cases hp : p h <;> simp [List.filter_cons, hp] <;> omega

mutual

/-- structure/index.ts `flattenEndpoints` together with the list map it
performs over the non-`"."` keys.  A node is recognised as a terminal
endpoint by the truthiness of its `filepath` member — on a leaf that is the
leaf's own field, on a tree object a lookup of the key `"filepath"`.  A leaf
whose `filepath` is falsy falls through to the generic object walk, which
finds neither a `"."` entry nor subtree keys on an endpoint record and so
contributes nothing. -/
def flattenEndpoints : Option ETree → List ETree
  | none => []
  | some (ETree.leaf e) => if e.filepath ≠ "" then [ETree.leaf e] else []
  | some (ETree.node entries) =>
    match objGet entries "filepath" with
    | some _ => [ETree.node entries]
    | none =>
      (match objGet entries "." with
       | some v => [v]
       | none => []) ++ flattenList (entries.filter (fun p => p.1 ≠ "."))
termination_by t => sizeOf t
decreasing_by
  simp_wf
  have := sizeOf_filter_le (fun p => !decide (p.1 = ".")) entries
  omega

/-- The `segments.map(flattenEndpoints).flat()` part of `flattenEndpoints`. -/
def flattenList : List (String × ETree) → List ETree
  | [] => []
  | (_, t) :: rest => flattenEndpoints (some t) ++ flattenList rest
termination_by l => sizeOf l
decreasing_by
  all_goals simp_wf <;> omega

end

/-- Modelled from the spec: `getServerConfig` (config-server is not under
src) — a separate, simpler file lookup; absence of the file yields exactly
one MissingConfig-class ERROR diagnostic and no server configuration. -/
def getServerConfigS (env : Env) (entry : String) :
    List Message × Option ServerConfigFile :=
  match env.serverConfigLookup entry with
  | some server => ([], some server)
  | none => ([serverConfigMissingMsg entry], none)

/-- The compiled hand-off artifact `{ tree, list }`. -/
structure EndpointStructureV where
  tree : EntryList
  list : List ETree

/-- The result of `getStructure`. -/
structure StructureResult where
  logs : List Message
  endpoints : Option EndpointStructureV
  server : Option ServerConfigFile

/-- structure/index.ts `getStructure`: resolve the server configuration
(a hard prerequisite), then compile the root with `isRoot = true` and the
server's context; package the tree with its flattened list. -/
def getStructureF (env : Env) (fuel : Nat) (entry : String) : StructureResult :=
  match getServerConfigS env entry with
  | (logsServer, none) => ⟨logsServer, none, none⟩
  | (logsServer, some server) =>
    let c := getComponentsF env fuel entry server.instContext server.filepath [] true
    match c.endpoints with
    | none => ⟨logsServer ++ c.logs, none, none⟩
    | some tree =>
      ⟨logsServer ++ c.logs
      , some ⟨tree, flattenEndpoints (some (ETree.node tree))⟩
      , some server⟩

/-! Helper lemmas about the JS-object operations and the compiler's
recursion, shared by the claim theorems. -/

/-- Tree keys `"/<name>"` are injective in the name. -/
theorem slashKey_inj {a b : String} (h : "/" ++ a = "/" ++ b) : a = b := by
  cases a; cases b
  simp [String.ext_iff] at h ⊢
  simpa using h

theorem objGet_set_self (l : EntryList) (k : String) (v : ETree) :
    objGet (objSet l k v) k = some v := by
  induction l with
  | nil => simp [objSet, objGet]
  | cons h t ih =>
    by_cases hk : h.1 = k <;> simp [objSet, objGet, hk, ih]

theorem objGet_set_ne (l : EntryList) {k k' : String} (v : ETree)
    (h : k' ≠ k) : objGet (objSet l k' v) k = objGet l k := by
  induction l with
  | nil => simp [objSet, objGet, h]
  | cons hd t ih =>
    by_cases hk : hd.1 = k'
    · simp [objSet, objGet, hk, h]
    · simp [objSet, objGet, hk, ih]

/-- The tree actually computed by `getEndpoints` at a directory level. -/
def treeOfG (env : Env) (compile : Compile) (module : ModuleConfigFile)
    (t : DirTree) (segments : List Segment) : EntryList :=
  (getEndpointsG env compile module t segments).endpoints.getD []

/-- `getEndpoints` always returns an endpoints object (possibly empty): the
`if (_endpoints)` guard of the child loop never sees `undefined` from this
recursion. -/
theorem getEndpointsG_endpoints_eq (env : Env) (compile : Compile)
    (module : ModuleConfigFile) (t : DirTree) (segments : List Segment) :
    (getEndpointsG env compile module t segments).endpoints =
      some (treeOfG env compile module t segments) := by
  cases t
  simp [getEndpointsG, treeOfG]

theorem getEndpointsG_mk (env : Env) (compile : Compile)
    (module : ModuleConfigFile) (files : List String)
    (dirs : List (String × DirTree)) (segments : List Segment) :
    getEndpointsG env compile module (DirTree.mk files dirs) segments =
      ⟨(filePhase env compile module files segments).1 ++
        (processChildrenG env compile module files.head? segments dirs
          (filePhase env compile module files segments).2).1
      , some (processChildrenG env compile module files.head? segments dirs
          (filePhase env compile module files segments).2).2⟩ := by
  simp [getEndpointsG]

theorem processChildrenG_nil (env : Env) (compile : Compile)
    (module : ModuleConfigFile) (routeFile : Option String)
    (segments : List Segment) (endpoints : EntryList) :
    processChildrenG env compile module routeFile segments [] endpoints =
      ([], endpoints) := by
  simp [processChildrenG]

/-- Unfolding of one step of the child loop, with the always-present child
subtree resolved. -/
theorem processChildrenG_cons (env : Env) (compile : Compile)
    (module : ModuleConfigFile) (routeFile : Option String)
    (segments : List Segment) (n : String) (t : DirTree)
    (rest : List (String × DirTree)) (endpoints : EntryList) :
    processChildrenG env compile module routeFile segments ((n, t) :: rest) endpoints =
      ((if (objGet endpoints ("/" ++ n)).isSome then
          [overlapWarn segments routeFile] else []) ++
        (getEndpointsG env compile module t (segments ++ [getSegment n])).logs ++
        (processChildrenG env compile module routeFile segments rest
          (objSet endpoints ("/" ++ n)
            (ETree.node (treeOfG env compile module t (segments ++ [getSegment n]))))).1
      , (processChildrenG env compile module routeFile segments rest
          (objSet endpoints ("/" ++ n)
            (ETree.node (treeOfG env compile module t (segments ++ [getSegment n]))))).2) := by
  rw [processChildrenG]
  rw [getEndpointsG_endpoints_eq]

theorem hasErrorLog_append (a b : List Message) :
    hasErrorLog (a ++ b) = (hasErrorLog a || hasErrorLog b) := by
  simp [hasErrorLog, List.any_append]

section ChildLoop

variable (env : Env) (compile : Compile) (module : ModuleConfigFile)
variable (routeFile : Option String) (segments : List Segment)

/-- Keys not claimed by any child of the loop are untouched by it. -/
theorem pc_objGet_untouched (l : List (String × DirTree)) (init : EntryList)
    (k : String) (h : ∀ p ∈ l, ("/" ++ p.1) ≠ k) :
    objGet (processChildrenG env compile module routeFile segments l init).2 k =
      objGet init k := by
  induction l generalizing init with
  | nil => simp [processChildrenG_nil]
  | cons hd rest ih =>
    obtain ⟨n, t⟩ := hd
    rw [processChildrenG_cons]
    simp only
    rw [ih _ (fun p hp => h p (List.mem_cons_of_mem _ hp))]
    exact objGet_set_ne _ _ (h (n, t) (List.mem_cons_self _ _))

/-- After the loop, each child's key holds that child's own compiled
subtree, independently of its siblings. -/
theorem pc_objGet_child (l : List (String × DirTree)) (init : EntryList)
    (n : String) (t : DirTree) (hmem : (n, t) ∈ l)
    (hnd : (l.map Prod.fst).Nodup) :
    objGet (processChildrenG env compile module routeFile segments l init).2
        ("/" ++ n) =
      some (ETree.node (treeOfG env compile module t (segments ++ [getSegment n]))) := by
  induction l generalizing init with
  | nil => cases hmem
  | cons hd rest ih =>
    obtain ⟨m, u⟩ := hd
    rw [processChildrenG_cons]
    simp only
    rcases List.mem_cons.mp hmem with heq | hmem'
    · obtain ⟨hn, ht⟩ := Prod.mk.injEq .. ▸ heq
      subst hn; subst ht
      rw [pc_objGet_untouched]
      · exact objGet_set_self ..
      · intro p hp hk
        have hne : p.1 ≠ n := by
          intro hpn
          have : n ∈ rest.map Prod.fst := hpn ▸ List.mem_map_of_mem _ hp
          exact (List.nodup_cons.mp hnd).1 this
        exact hne (slashKey_inj hk)
    · have hnd' := (List.nodup_cons.mp hnd).2
      exact ih (objSet init ("/" ++ m)
        (ETree.node (treeOfG env compile module u (segments ++ [getSegment m])))) hmem' hnd'

/-- Every child's own diagnostics appear contiguously in the loop's
diagnostic sequence. -/
theorem pc_logs_infix (l : List (String × DirTree)) (init : EntryList)
    (n : String) (t : DirTree) (hmem : (n, t) ∈ l) :
    (getEndpointsG env compile module t (segments ++ [getSegment n])).logs <:+:
      (processChildrenG env compile module routeFile segments l init).1 := by
  induction l generalizing init with
  | nil => cases hmem
  | cons hd rest ih =>
    obtain ⟨m, u⟩ := hd
    rw [processChildrenG_cons]
    simp only
    rcases List.mem_cons.mp hmem with heq | hmem'
    · obtain ⟨hn, ht⟩ := Prod.mk.injEq .. ▸ heq
      subst hn; subst ht
      exact ⟨_, _, rfl⟩
    · obtain ⟨s, s', hs⟩ := ih (objSet init ("/" ++ m)
        (ETree.node (treeOfG env compile module u (segments ++ [getSegment m])))) hmem'
      refine ⟨(if (objGet init ("/" ++ m)).isSome then
          [overlapWarn segments routeFile] else []) ++
        (getEndpointsG env compile module u (segments ++ [getSegment m])).logs ++ s
        , s', ?_⟩
      simp only [List.append_assoc, hs]

/-- The loop emits the level's overlap WARN once per colliding child: with
distinct child names, the number of occurrences of the WARN in the loop's
diagnostics equals the number of children whose key is already present in
the incoming tree (provided none of the recursive calls emits that exact
message themselves). -/
theorem pc_warn_count (l : List (String × DirTree)) (init : EntryList)
    (hnd : (l.map Prod.fst).Nodup)
    (hfresh : ∀ p ∈ l, overlapWarn segments routeFile ∉
      (getEndpointsG env compile module p.2 (segments ++ [getSegment p.1])).logs) :
    (processChildrenG env compile module routeFile segments l init).1.count
        (overlapWarn segments routeFile) =
      l.countP (fun p => (objGet init ("/" ++ p.1)).isSome) := by
  induction l generalizing init with
  | nil => simp [processChildrenG_nil]
  | cons hd rest ih =>
    obtain ⟨m, u⟩ := hd
    rw [processChildrenG_cons]
    simp only [List.count_append, List.countP_cons]
    have h0 : (getEndpointsG env compile module u
        (segments ++ [getSegment m])).logs.count (overlapWarn segments routeFile) = 0 :=
      List.count_eq_zero.mpr (hfresh (m, u) (List.mem_cons_self _ _))
    have hrest : ∀ p ∈ rest, overlapWarn segments routeFile ∉
        (getEndpointsG env compile module p.2 (segments ++ [getSegment p.1])).logs :=
      fun p hp => hfresh p (List.mem_cons_of_mem _ hp)
    rw [h0, ih (objSet init ("/" ++ m)
      (ETree.node (treeOfG env compile module u (segments ++ [getSegment m]))))
      (List.nodup_cons.mp hnd).2 hrest]
    have hcong : rest.countP (fun p => (objGet (objSet init ("/" ++ m)
        (ETree.node (treeOfG env compile module u (segments ++ [getSegment m]))))
          ("/" ++ p.1)).isSome) =
        rest.countP (fun p => (objGet init ("/" ++ p.1)).isSome) := by
      refine List.countP_congr (fun p hp => ?_)
      have hne : ("/" ++ m) ≠ ("/" ++ p.1) := by
        intro hk
        have hmp : m = p.1 := slashKey_inj hk
        have : m ∈ rest.map Prod.fst := hmp ▸ List.mem_map_of_mem _ hp
        exact (List.nodup_cons.mp hnd).1 this
      rw [objGet_set_ne _ _ hne]
    rw [hcong]
    by_cases hc : (objGet init ("/" ++ m)).isSome <;> (simp [hc]; try omega)

end ChildLoop

/-! Concrete fixtures used by witnesses and counterexamples. -/

/-- A concrete terminal endpoint. -/
def epA : Endpoint := ⟨"/app/routes/index.ts", none, []⟩

/-- A concrete module level. -/
def modA : ModuleConfigFile :=
  ⟨"/app/routes", "/app/routes", "ctx", "/app/sherpa.server.ts"
  , ⟨".", CreateModuleInterface⟩⟩

/-- A delegation callback that always fails (no endpoints, no logs). -/
def compileNone : Compile := fun _ _ _ _ => ⟨[], none⟩

/-- A delegation callback that always succeeds with a one-endpoint tree. -/
def compileOne : Compile := fun _ _ _ _ => ⟨[], some [(".", ETree.leaf epA)]⟩

/-- A benign oracle assignment: every lookup succeeds, every file is a
well-formed TypeScript module, nothing delegates. -/
def envA : Env :=
  { getDirectory := fun s => s
  , getName := fun s => s
  , resolveExtensionFunctions := fun _ n => some (n ++ ".ts")
  , resolveExtensionView := fun _ _ => none
  , pathResolve := fun rel dir => dir ++ "/" ++ rel
  , hasExportedLoader := fun _ => false
  , getExportedLoader := fun _ => ([], some ⟨"./nested"⟩)
  , getDefaultExportLoader := fun _ => Except.ok ⟨"nestedCtx"⟩
  , typeValidation := fun _ => []
  , getRouteFiles := fun _ => ([], some (DirTree.mk [] []))
  , getEndpointByDeclaration := fun _ _ _ segs =>
      ⟨[], some [(".", ETree.leaf ⟨"/app/routes/index.ts", none, segs⟩)]⟩
  , getFilepathVariableExtension := fun _ _ _ => some "/app/routes/sherpa.module.ts"
  , getDefaultExportModuleConfig := fun _ => some ⟨"app", CreateModuleInterface⟩
  , getExportedVariableNames := fun _ => [CONTEXT_SCHEMA_TYPE_NAME]
  , getExtension := fun _ => "TS"
  , serverConfigLookup := fun _ => some ⟨"/app/sherpa.server.ts", "ctx"⟩ }

example :
    getEndpointsG envA compileNone modA
        (DirTree.mk [] [("[id]", DirTree.mk [] [])]) [] =
      ⟨[], some [("/[id]", ETree.node [])]⟩ := rfl

/-- `flattenList` is the flat-mapped recursion of the source's
`segments.map(...).flat()`. -/
theorem flattenList_eq_map (l : List (String × ETree)) :
    flattenList l = (l.map (fun p => flattenEndpoints (some p.2))).flatten := by
  induction l with
  | nil => simp [flattenList]
  | cons h t ih =>
    obtain ⟨k, v⟩ := h
    simp [flattenList, ih]

/-! The claims. -/

/-- C8: with `isRoot = true` the structure compiler synthesizes the module
identity in memory — name `"."`, the fixed root interface, entry and
filepath equal to the entry directory, and the context and context filepath
passed in from the server configuration — for every oracle assignment (so
no module-configuration file is consulted); only non-root invocations
delegate to the module resolver. -/
theorem c8_root_module_synthesized (env : Env) (entry : String)
    (context : Context) (contextFilepath : String) :
    getModule env entry context contextFilepath true =
      ([], some
        { entry := entry
        , filepath := entry
        , context := context
        , contextFilepath := contextFilepath
        , inst := { name := ".", interface := CreateModuleInterface } }) ∧
    getModule env entry context contextFilepath false =
      getModuleConfig env entry context contextFilepath :=
  ⟨rfl, rfl⟩

/-- C9: the module resolver's context-schema flag holds exactly when the
module file exports the recognized context-schema symbol name and carries
the TypeScript extension; a module in the dynamically-typed dialect never
sets the flag, even when it exports a symbol of that name. -/
theorem c9_context_schema_flag (env : Env) (filepath : String) :
    (hasContextSchema env filepath = true ↔
      CONTEXT_SCHEMA_TYPE_NAME ∈ env.getExportedVariableNames filepath ∧
        env.getExtension filepath = "TS") ∧
    (env.getExtension filepath ≠ "TS" → hasContextSchema env filepath = false) := by
  constructor
  · simp [hasContextSchema, List.contains, List.elem_iff, and_comm]
  · intro h
    simp [hasContextSchema, h]

/-- Witness for C9 at a concrete oracle: a module in the dynamically-typed
dialect that does export the symbol still has a false flag. -/
theorem c9_witness :
    hasContextSchema { envA with getExtension := fun _ => "JS" } "/app/m.js" = false :=
  (c9_context_schema_flag { envA with getExtension := fun _ => "JS" } "/app/m.js").2
    (by decide)

/-- C6: the flattener is a pure total function: `undefined` and the empty
tree flatten to the empty list; a terminal endpoint (one with a concrete,
hence truthy, handler filepath) flattens to itself as a singleton; and a
non-terminal tree contributes its `"."` entry first (if present) followed
by each non-`"."` key's flattened contents in tree key order. -/
theorem c6_flatten_spec :
    flattenEndpoints none = [] ∧
    flattenEndpoints (some (ETree.node [])) = [] ∧
    (∀ e : Endpoint, e.filepath ≠ "" →
      flattenEndpoints (some (ETree.leaf e)) = [ETree.leaf e]) ∧
    (∀ entries : EntryList, objGet entries "filepath" = none →
      flattenEndpoints (some (ETree.node entries)) =
        (match objGet entries "." with
         | some v => [v]
         | none => []) ++
        ((entries.filter (fun p => p.1 ≠ ".")).map
          (fun p => flattenEndpoints (some p.2))).flatten) := by
  refine ⟨?_, ?_, fun e he => ?_, fun entries hfp => ?_⟩
  · simp [flattenEndpoints]
  · simp [flattenEndpoints, objGet, flattenList]
  · simp [flattenEndpoints, he]
  · rw [flattenEndpoints, hfp, flattenList_eq_map]

/-- Witness for C6: a concrete terminal endpoint flattens to itself. -/
theorem c6_witness : flattenEndpoints (some (ETree.leaf epA)) = [ETree.leaf epA] :=
  c6_flatten_spec.2.2.1 epA (by decide)

/-- C7 fails as stated: a child directory named `[id]` is parsed into the
dynamic segment `{name := "id", isDynamic := true}`, but the tree key is
built from the literal directory name, giving `"/[id]"`, not `"/id"` — a
lookup under the bracket-stripped key finds nothing, so dynamic and static
directories are distinguishable from the key string. -/
theorem c7_counterexample :
    getSegment "[id]" = ⟨"id", true⟩ ∧
    (getEndpointsG envA compileNone modA
        (DirTree.mk [] [("[id]", DirTree.mk [] [])]) []).endpoints =
      some [("/[id]", ETree.node [])] ∧
    objGet [("/[id]", ETree.node [])] "/id" = none ∧
    "/[id]" ≠ "/id" :=
  ⟨by decide, rfl, rfl, by decide⟩

/-- C7 amended: the segment parser is pure and total — `[id]` yields
`{name := id, isDynamic := true}` with the brackets stripped and anything
else yields `{name := directoryName, isDynamic := false}` — but the tree
key of a child directory is `"/"` followed by the literal directory name
(brackets retained), so for dynamic directories the key differs from
`"/" ++ segment.name`. -/
theorem c7_amended (env : Env) (compile : Compile) (module : ModuleConfigFile)
    (segments : List Segment) :
    (∀ cs : List Char, getSegment ⟨'[' :: cs ++ [']']⟩ = ⟨⟨cs⟩, true⟩) ∧
    (∀ id : String,
      ¬(id.data.head? = some '[' ∧ id.data.getLast? = some ']') →
      getSegment id = ⟨id, false⟩) ∧
    (∀ n : String,
      getEndpointsG env compile module (DirTree.mk [] [(n, DirTree.mk [] [])])
          segments =
        ⟨[], some [("/" ++ n, ETree.node [])]⟩) := by
  refine ⟨fun cs => ?_, fun id h => ?_, fun n => rfl⟩
  · have hlast : ('[' :: (cs ++ [']'])).getLast? = some ']' := by
      rw [← List.cons_append]
      exact List.getLast?_concat _
    have hdrop : (('[' :: (cs ++ [']'])).drop 1).dropLast = cs := by
      simp [List.dropLast_concat]
    simp [getSegment, hlast, hdrop]
  · simp [getSegment, h]

/-- Witness for C7 amended: a static name parses undecorated, and the key
of a bracketed directory keeps its brackets. -/
theorem c7_amended_witness :
    getSegment "route" = ⟨"route", false⟩ ∧
    getEndpointsG envA compileNone modA
        (DirTree.mk [] [("[id]", DirTree.mk [] [])]) [] =
      ⟨[], some [("/" ++ "[id]", ETree.node [])]⟩ :=
  ⟨(c7_amended envA compileNone modA []).2.1 "route" (by decide)
  , (c7_amended envA compileNone modA []).2.2 "[id]"⟩

/-- C1 fails as stated: with a view file beside a delegated route file, the
classifier emits the WARN and returns immediately with no endpoints — the
delegated branch is never compiled, even under a delegation callback that
would have contributed an endpoint tree. -/
theorem c1_counterexample :
    getEndpointFileByModuleG envA compileOne "/app/routes/index.ts"
        (some "/app/routes/index.view.html") [] =
      ⟨[viewWarnMsg "/app/routes/index.view.html"], none⟩ ∧
    (compileOne "/app/routes/nested" "nestedCtx" "/app/routes/index.ts" []).endpoints =
      some [(".", ETree.leaf epA)] :=
  ⟨rfl, rfl⟩

/-- C1 amended: for a delegated route file with a coexisting view file the
classifier emits exactly one WARN and discards the whole route file — it
returns no endpoints, without invoking the nested compile — while
compilation continues around it: the level's child directories are still
processed and contribute their subtrees. -/
theorem c1_amended (env : Env) (compile : Compile) (module : ModuleConfigFile)
    (filepath ffp v : String) (files : List String)
    (dirs : List (String × DirTree)) (segments : List Segment)
    (hf : env.resolveExtensionFunctions (env.getDirectory filepath)
      (env.getName filepath) = some ffp)
    (hne : ffp ≠ "")
    (hld : env.hasExportedLoader ffp = true)
    (hv : env.resolveExtensionView (env.getDirectory filepath)
      (env.getName filepath) = some v) :
    getEndpointFileByModuleG env compile ffp (some v) segments =
      ⟨[viewWarnMsg v], none⟩ ∧
    (viewWarnMsg v).level = some Level.WARN ∧
    getEndpointsG env compile module (DirTree.mk (filepath :: files) dirs) segments =
      ⟨[viewWarnMsg v] ++
        (processChildrenG env compile module (some filepath) segments dirs []).1
      , some (processChildrenG env compile module (some filepath) segments dirs []).2⟩ := by
  refine ⟨rfl, rfl, ?_⟩
  rw [getEndpointsG_mk]
  have hfile : filePhase env compile module (filepath :: files) segments =
      ([viewWarnMsg v], []) := by
    simp [filePhase, getEndpointFileG, hf, hne, hld, hv, getEndpointFileByModuleG]
  rw [hfile]
  rfl

/-- An oracle assignment where every route file is a delegated module that
sits beside a view file. -/
def envView : Env :=
  { envA with
    hasExportedLoader := fun _ => true
    resolveExtensionView := fun _ _ => some "/app/routes/index.view.html" }

/-- Witness for C1 amended: a concrete oracle with a view file beside a
delegated route file, one sibling child directory still contributing. -/
theorem c1_amended_witness :
    getEndpointsG envView compileOne modA
        (DirTree.mk ["/app/routes/index.ts"] [("a", DirTree.mk [] [])]) [] =
      ⟨[viewWarnMsg "/app/routes/index.view.html"] ++
        (processChildrenG envView compileOne modA (some "/app/routes/index.ts")
          [] [("a", DirTree.mk [] [])] []).1
      , some (processChildrenG envView compileOne modA (some "/app/routes/index.ts")
          [] [("a", DirTree.mk [] [])] []).2⟩ :=
  (c1_amended envView compileOne modA "/app/routes/index.ts" "/app/routes/index.ts.ts"
    "/app/routes/index.view.html" [] [("a", DirTree.mk [] [])] []
    rfl (by decide) rfl rfl).2.2

/-- C4: when the server configuration cannot be resolved at the root entry,
`getStructure` aborts the whole compilation: no endpoint structure, no
server, and exactly one MissingConfig-class ERROR diagnostic. -/
theorem c4_missing_server_config (env : Env) (fuel : Nat) (entry : String)
    (h : env.serverConfigLookup entry = none) :
    getStructureF env fuel entry =
      ⟨[serverConfigMissingMsg entry], none, none⟩ ∧
    (serverConfigMissingMsg entry).level = some Level.ERROR := by
  refine ⟨?_, rfl⟩
  simp [getStructureF, getServerConfigS, h]

/-- Witness for C4 at a concrete oracle with no server config anywhere. -/
theorem c4_witness :
    getStructureF { envA with serverConfigLookup := fun _ => none } 3 "/app" =
      ⟨[serverConfigMissingMsg "/app"], none, none⟩ :=
  (c4_missing_server_config { envA with serverConfigLookup := fun _ => none }
    3 "/app" rfl).1

/-- A concrete ERROR diagnostic produced by the type-validation oracle. -/
def typeErrMsg : Message :=
  ⟨some Level.ERROR, "Invalid type.", none, some "/app/routes/index.ts.ts"⟩

/-- An oracle assignment where every route file is a delegated module and
type validation reports one ERROR. -/
def envErr : Env :=
  { envA with
    hasExportedLoader := fun _ => true
    typeValidation := fun _ => [typeErrMsg] }

/-- C2: for a delegated route file (no view, loader and default export
resolved), an ERROR-level diagnostic from the nested compile or from the
type-validation pass makes the classifier return no endpoints — so the
route-file phase of the parent level contributes the empty tree — while
every diagnostic, the ERROR ones included, stays in the returned merged
sequence. -/
theorem c2_delegated_error_suppression (env : Env) (compile : Compile)
    (ffp : String) (segments : List Segment)
    (loaderLogs : List Message) (lm : ExportedLoader) (ml : ModuleLoader)
    (h1 : env.getExportedLoader ffp = (loaderLogs, some lm))
    (h2 : env.getDefaultExportLoader ffp = Except.ok ml)
    (h3 : hasErrorLog
      ((compile (env.pathResolve lm.filepath (env.getDirectory ffp)) ml.context ffp
        segments).logs ++ env.typeValidation ffp) = true) :
    getEndpointFileByModuleG env compile ffp none segments =
      ⟨loaderLogs ++
        (compile (env.pathResolve lm.filepath (env.getDirectory ffp)) ml.context ffp
          segments).logs ++ env.typeValidation ffp
      , none⟩ ∧
    (compile (env.pathResolve lm.filepath (env.getDirectory ffp)) ml.context ffp
        segments).logs <:+:
      (getEndpointFileByModuleG env compile ffp none segments).logs ∧
    env.typeValidation ffp <:+:
      (getEndpointFileByModuleG env compile ffp none segments).logs ∧
    (∀ (module : ModuleConfigFile) (filepath : String) (files : List String),
      env.resolveExtensionFunctions (env.getDirectory filepath) (env.getName filepath)
          = some ffp →
      ffp ≠ "" →
      env.hasExportedLoader ffp = true →
      env.resolveExtensionView (env.getDirectory filepath) (env.getName filepath)
          = none →
      filePhase env compile module (filepath :: files) segments =
        ((getEndpointFileByModuleG env compile ffp none segments).logs, [])) := by
  have hmain : getEndpointFileByModuleG env compile ffp none segments =
      ⟨loaderLogs ++
        (compile (env.pathResolve lm.filepath (env.getDirectory ffp)) ml.context ffp
          segments).logs ++ env.typeValidation ffp
      , none⟩ := by
    have hha : hasErrorLog (loaderLogs ++
        ((compile (env.pathResolve lm.filepath (env.getDirectory ffp)) ml.context ffp
          segments).logs ++ env.typeValidation ffp)) = true := by
      rw [hasErrorLog_append, h3, Bool.or_true]
    simp [getEndpointFileByModuleG, h1, h2, hha]
  refine ⟨hmain, ?_, ?_, ?_⟩
  · rw [hmain]
    exact ⟨loaderLogs, env.typeValidation ffp, by simp⟩
  · rw [hmain]
    exact ⟨loaderLogs ++
      (compile (env.pathResolve lm.filepath (env.getDirectory ffp)) ml.context ffp
        segments).logs, [], by simp⟩
  · intro module filepath files hrf hne hld hrv
    simp [filePhase, getEndpointFileG, hrf, hne, hld, hrv, hmain]

/-- Witness for C2: the type-validation error suppresses the delegated
branch even though the nested compile produced an endpoint tree. -/
theorem c2_witness :
    (getEndpointFileByModuleG envErr compileOne "/app/routes/index.ts.ts" none
      []).endpoints = none := by
  have h := (c2_delegated_error_suppression envErr compileOne
    "/app/routes/index.ts.ts" [] [] ⟨"./nested"⟩ ⟨"nestedCtx"⟩ rfl rfl
    (by decide)).1
  rw [h]

/-- An oracle assignment under which no module-config file exists. -/
def envNoCfg : Env :=
  { envA with getFilepathVariableExtension := fun _ _ _ => none }

/-- C5: at a non-root module level with no module-configuration file (by
the fixed base filename and the supported extensions), resolution yields
the ERROR-level missing-config diagnostic and no module file, and the
compile of that branch aborts with no endpoints; sibling branches are
unaffected — after the child loop, each sibling's key holds that sibling's
own compiled subtree, an expression independent of every other branch. -/
theorem c5_missing_module_config (env : Env) (fuel : Nat) (entry : String)
    (context : Context) (contextFilepath : String) (segments : List Segment)
    (h : env.getFilepathVariableExtension entry FILENAME_CONFIG_MODULE
      SUPPORTED_FILE_EXTENSIONS = none) :
    getModuleConfig env entry context contextFilepath =
      ([moduleConfigMissingMsg entry], none) ∧
    (moduleConfigMissingMsg entry).level = some Level.ERROR ∧
    getComponentsF env fuel entry context contextFilepath segments false =
      ⟨[moduleConfigMissingMsg entry], none⟩ ∧
    (∀ (compile : Compile) (module : ModuleConfigFile) (routeFile : Option String)
        (segs : List Segment) (dirs : List (String × DirTree)) (init : EntryList)
        (m : String) (u : DirTree), (m, u) ∈ dirs → (dirs.map Prod.fst).Nodup →
      objGet (processChildrenG env compile module routeFile segs dirs init).2
          ("/" ++ m) =
        some (ETree.node (treeOfG env compile module u (segs ++ [getSegment m])))) := by
  have hcfg : getModuleConfig env entry context contextFilepath =
      ([moduleConfigMissingMsg entry], none) := by
    simp [getModuleConfig, getConfigFilepath, h]
  refine ⟨hcfg, rfl, ?_, ?_⟩
  · cases fuel <;> simp [getComponentsF, getModule, hcfg]
  · intro compile module routeFile segs dirs init m u hm hnd
    exact pc_objGet_child env compile module routeFile segs dirs init m u hm hnd

/-- Witness for C5: a concrete oracle with no module-config file anywhere
aborts the non-root branch with exactly the missing-config ERROR. -/
theorem c5_witness :
    getComponentsF envNoCfg 2 "/app/routes/a" "ctx" "/app/sherpa.server.ts" []
        false =
      ⟨[moduleConfigMissingMsg "/app/routes/a"], none⟩ :=
  (c5_missing_module_config envNoCfg 2 "/app/routes/a" "ctx"
    "/app/sherpa.server.ts" [] rfl).2.2.1

/-- C3: at a directory level where the route file's contribution and exactly
one child directory claim the same key, the compiler emits exactly one
overlap WARN (a WARN-level message) and the final value stored at the key is
the child directory's compiled subtree — last writer wins — while
compilation continues (the level still returns a tree).  The freshness
hypotheses state that neither the route-file phase nor any child recursion
already contains the level's own WARN message, so the count isolates this
level's collision. -/
theorem c3_segment_conflict (env : Env) (compile : Compile)
    (module : ModuleConfigFile) (files : List String)
    (dirs : List (String × DirTree)) (segments : List Segment)
    (n : String) (t : DirTree)
    (hnd : (dirs.map Prod.fst).Nodup)
    (hmem : (n, t) ∈ dirs)
    (_hcol : (objGet (filePhase env compile module files segments).2
      ("/" ++ n)).isSome)
    (hone : dirs.countP
      (fun p => (objGet (filePhase env compile module files segments).2
        ("/" ++ p.1)).isSome) = 1)
    (hfresh1 : overlapWarn segments files.head? ∉
      (filePhase env compile module files segments).1)
    (hfresh2 : ∀ p ∈ dirs, overlapWarn segments files.head? ∉
      (getEndpointsG env compile module p.2 (segments ++ [getSegment p.1])).logs) :
    (getEndpointsG env compile module (DirTree.mk files dirs) segments).logs.count
        (overlapWarn segments files.head?) = 1 ∧
    objGet (treeOfG env compile module (DirTree.mk files dirs) segments)
        ("/" ++ n) =
      some (ETree.node (treeOfG env compile module t (segments ++ [getSegment n]))) ∧
    (overlapWarn segments files.head?).level = some Level.WARN := by
  refine ⟨?_, ?_, rfl⟩
  · rw [getEndpointsG_mk]
    simp only [List.count_append]
    have h0 : (filePhase env compile module files segments).1.count
        (overlapWarn segments files.head?) = 0 :=
      List.count_eq_zero.mpr hfresh1
    rw [h0, pc_warn_count env compile module files.head? segments dirs _ hnd hfresh2,
      hone]
  · have ht : treeOfG env compile module (DirTree.mk files dirs) segments =
        (processChildrenG env compile module files.head? segments dirs
          (filePhase env compile module files segments).2).2 := by
      simp [treeOfG, getEndpointsG]
    rw [ht]
    exact pc_objGet_child env compile module files.head? segments dirs _ n t hmem hnd

/-- An oracle assignment whose declarative route files claim the child key
`"/a"` directly. -/
def envC3 : Env :=
  { envA with
    getEndpointByDeclaration := fun _ _ _ _ =>
      ⟨[], some [("/a", ETree.leaf epA)]⟩ }

/-- Witness for C3: a route file claiming `"/a"` next to a child directory
`a` produces exactly one overlap WARN and the key ends up holding the child
subtree. -/
theorem c3_witness :
    (getEndpointsG envC3 compileNone modA
        (DirTree.mk ["/app/routes/index.ts"] [("a", DirTree.mk [] [])]) []).logs.count
        (overlapWarn [] (some "/app/routes/index.ts")) = 1 ∧
    objGet (treeOfG envC3 compileNone modA
        (DirTree.mk ["/app/routes/index.ts"] [("a", DirTree.mk [] [])]) [])
        ("/" ++ "a") =
      some (ETree.node (treeOfG envC3 compileNone modA (DirTree.mk [] [])
        ([] ++ [getSegment "a"]))) := by
  have h := c3_segment_conflict envC3 compileNone modA ["/app/routes/index.ts"]
    [("a", DirTree.mk [] [])] [] "a" (DirTree.mk [] [])
    (by simp)
    (List.mem_singleton.mpr rfl)
    (by decide)
    (by decide)
    (by decide)
    (by
      intro p hp
      rw [List.mem_singleton] at hp
      subst hp
      exact List.not_mem_nil _)
  exact ⟨h.1, h.2.1⟩

/-- An oracle assignment where `"/parent.ts"` is a declarative route file
claiming the key `"/a"`, while `"/child.ts"` is a delegated route file with
a coexisting view file (so its level fails internally and compiles to the
empty tree). -/
def envC10 : Env :=
  { envA with
    resolveExtensionFunctions := fun _ n => some n
    resolveExtensionView := fun _ n =>
      if n == "/child.ts" then some "/child.view.html" else none
    hasExportedLoader := fun f => f == "/child.ts"
    getEndpointByDeclaration := fun _ _ _ _ =>
      ⟨[], some [("/a", ETree.leaf epA)]⟩ }

/-- C10 fails under its intended reading: a child directory whose own
compilation failed internally (its route file was discarded, so it compiled
to the empty subtree) still gets its key written — the route file's earlier
value at `"/a"` is overwritten by the empty child subtree rather than
surviving — because the child recursion always returns a tree object.  The
child's diagnostics are still concatenated. -/
theorem c10_counterexample :
    getEndpointsG envC10 compileNone modA
        (DirTree.mk ["/parent.ts"] [("a", DirTree.mk ["/child.ts"] [])]) [] =
      ⟨[overlapWarn [] (some "/parent.ts"), viewWarnMsg "/child.view.html"]
      , some [("/a", ETree.node [])]⟩ ∧
    (getEndpointFileG envC10 compileNone modA "/child.ts" [getSegment "a"]).endpoints
      = none ∧
    (filePhase envC10 compileNone modA ["/parent.ts"] []).2 =
      [("/a", ETree.leaf epA)] ∧
    some (ETree.node ([] : EntryList)) ≠ some (ETree.leaf epA) := by
  refine ⟨rfl, rfl, rfl, ?_⟩
  intro h
  exact ETree.noConfusion (Option.some.inj h)

/-- C10 amended: the child recursion never fails — it always returns a
subtree object, possibly empty — so after the child loop every child's key
holds that child's own compiled subtree, overwriting any earlier value the
route file put there, and every child's diagnostics appear contiguously in
the level's diagnostic sequence. -/
theorem c10_amended (env : Env) (compile : Compile) (module : ModuleConfigFile)
    (files : List String) (dirs : List (String × DirTree))
    (segments : List Segment) (n : String) (t : DirTree)
    (hmem : (n, t) ∈ dirs) (hnd : (dirs.map Prod.fst).Nodup) :
    (getEndpointsG env compile module t (segments ++ [getSegment n])).endpoints ≠
      none ∧
    objGet (treeOfG env compile module (DirTree.mk files dirs) segments)
        ("/" ++ n) =
      some (ETree.node (treeOfG env compile module t (segments ++ [getSegment n]))) ∧
    (getEndpointsG env compile module t (segments ++ [getSegment n])).logs <:+:
      (getEndpointsG env compile module (DirTree.mk files dirs) segments).logs := by
  refine ⟨?_, ?_, ?_⟩
  · rw [getEndpointsG_endpoints_eq]
    simp
  · have ht : treeOfG env compile module (DirTree.mk files dirs) segments =
        (processChildrenG env compile module files.head? segments dirs
          (filePhase env compile module files segments).2).2 := by
      simp [treeOfG, getEndpointsG]
    rw [ht]
    exact pc_objGet_child env compile module files.head? segments dirs _ n t hmem hnd
  · obtain ⟨s, s', hs⟩ := pc_logs_infix env compile module files.head? segments dirs
      (filePhase env compile module files segments).2 n t hmem
    rw [getEndpointsG_mk]
    refine ⟨(filePhase env compile module files segments).1 ++ s, s', ?_⟩
    rw [← hs]
    simp [List.append_assoc]

/-- Witness for C10 amended, at the counterexample's input: the failed
child's key holds the empty child subtree. -/
theorem c10_amended_witness :
    objGet (treeOfG envC10 compileNone modA
        (DirTree.mk ["/parent.ts"] [("a", DirTree.mk ["/child.ts"] [])]) [])
        ("/" ++ "a") =
      some (ETree.node (treeOfG envC10 compileNone modA
        (DirTree.mk ["/child.ts"] []) ([] ++ [getSegment "a"]))) :=
  (c10_amended envC10 compileNone modA ["/parent.ts"]
    [("a", DirTree.mk ["/child.ts"] [])] [] "a" (DirTree.mk ["/child.ts"] [])
    (List.mem_singleton.mpr rfl) (by simp)).2.1
